import Mathlib

/-!
Verification of the partition-sets GraphQL schema layer
(`python_modules/dagster-graphql/dagster_graphql/schema/partition_sets.py`)
against its natural-language specification.

Pure data and control flow of the source file are embedded shallowly as
executable Lean definitions; collaborating components that the source file
only imports (the run ledger, the dynamic-partition registry, the partition
status aggregation helpers) are modelled from the specification where noted.
-/

/-- Run status enumeration mirroring `GrapheneRunStatus` / `DagsterRunStatus`
(the enum of run states referenced by the schema; its definition lives
outside this file's source). -/
inductive RunStatus where
  | QUEUED
  | NOT_STARTED
  | MANAGED
  | STARTING
  | STARTED
  | SUCCESS
  | FAILURE
  | CANCELING
  | CANCELED
  deriving DecidableEq, Repr

/-- A status-count bucket: either the explicit "unstarted" bucket (a partition
with no matching run) or a bucket for an observed run status. -/
inductive PartitionStatusBucket where
  | unstarted
  | run (s : RunStatus)
  deriving DecidableEq, Repr

/-- The bucket a partition falls into, given the status of its most recent
matching run (`none` when no run matches). -/
def bucketOf (s : Option RunStatus) : PartitionStatusBucket :=
  match s with
  | none => PartitionStatusBucket.unstarted
  | some st => PartitionStatusBucket.run st

/-- Modelled from the spec: `statusCounts(partitionSet, keys)` of the
PartitionStatusAggregator (`get_partition_set_partition_statuses` and its
helpers are imported by the source file but their code is not part of it).
For each key, resolve its status and tally: one count bucket per distinct
bucket observed, each carrying the number of keys that fall into it. -/
def statusCounts (statusOf : String → Option RunStatus) (keys : List String) :
    List (PartitionStatusBucket × Nat) :=
  let observed := (keys.map (fun k => bucketOf (statusOf k))).dedup
  observed.map (fun b => (b, (keys.map (fun k => bucketOf (statusOf k))).count b))

/-- C1: for every partition set (represented by its per-key status resolution)
and every key list, the sum of the counts across all returned buckets,
the explicit "unstarted" bucket included, equals the number of keys queried;
the empty key set yields an empty mapping; and the "unstarted" bucket is
present exactly when some queried key has no run. -/
theorem statusCounts_total (statusOf : String → Option RunStatus)
    (keys : List String) :
    ((statusCounts statusOf keys).map Prod.snd).sum = keys.length ∧
    statusCounts statusOf [] = [] ∧
    ((PartitionStatusBucket.unstarted ∈ (statusCounts statusOf keys).map Prod.fst) ↔
      ∃ k ∈ keys, statusOf k = none) := by
  refine ⟨?_, ?_, ?_⟩
  · have h := List.sum_map_count_dedup_eq_length (keys.map (fun k => bucketOf (statusOf k)))
    simp only [statusCounts, List.map_map, Function.comp_def]
    simpa using h
  · rfl
  · unfold statusCounts
    simp only [List.map_map]
    constructor
    · intro h
      rcases List.mem_map.mp h with ⟨b, hb, hfst⟩
      have hmem : PartitionStatusBucket.unstarted ∈
          keys.map (fun k => bucketOf (statusOf k)) := by
        have := List.mem_dedup.mp hb
        simpa [← hfst] using this
      rcases List.mem_map.mp hmem with ⟨k, hk, hbk⟩
      refine ⟨k, hk, ?_⟩
      cases hs : statusOf k with
      | none => rfl
      | some st => rw [hs] at hbk; simp [bucketOf] at hbk
    · rintro ⟨k, hk, hnone⟩
      apply List.mem_map.mpr
      refine ⟨PartitionStatusBucket.unstarted, ?_, rfl⟩
      apply List.mem_dedup.mpr
      apply List.mem_map.mpr
      exact ⟨k, hk, by simp [hnone, bucketOf]⟩

/-- The member types of the `GrapheneAddDynamicPartitionResult` union, in
source order (`class GrapheneAddDynamicPartitionResult ... Meta.types`). -/
def addDynamicPartitionResultTypes : List String :=
  ["GrapheneAddDynamicPartitionSuccess",
   "GrapheneUnauthorizedError",
   "GraphenePythonError",
   "GrapheneDuplicateDynamicPartitionError"]

/-- The member types of the `GrapheneDeleteDynamicPartitionsResult` union, in
source order (`class GrapheneDeleteDynamicPartitionsResult ... Meta.types`). -/
def deleteDynamicPartitionsResultTypes : List String :=
  ["GrapheneDeleteDynamicPartitionsSuccess",
   "GrapheneUnauthorizedError",
   "GraphenePythonError"]

/-- A registry error: either a duplicate-key rejection or a key-not-found
rejection, each carrying the exact offending key subset. -/
inductive RegistryError where
  | duplicateKey (dups : List String)
  | keyNotFound (missing : List String)
  deriving DecidableEq, Repr

/-- Modelled from the spec: `addKeys(defName, keys)` of the
DynamicPartitionRegistry (the registry implementation is imported by the
source file's collaborators, not part of it). Adding keys some of which are
already present fails with `DuplicateKeyError` listing the subset already
present; otherwise the keys are appended. -/
def addKeys (state ks : List String) : Except RegistryError (List String) :=
  let dups := ks.filter (fun k => state.contains k)
  if dups.isEmpty then Except.ok (state ++ ks)
  else Except.error (RegistryError.duplicateKey dups)

/-- Modelled from the spec: `deleteKeys(defName, keys)` of the
DynamicPartitionRegistry. Deleting keys some of which are absent fails with
`KeyNotFoundError` listing the missing subset; otherwise the keys are
removed. -/
def deleteKeys (state ks : List String) : Except RegistryError (List String) :=
  let missing := ks.filter (fun k => !(state.contains k))
  if missing.isEmpty then Except.ok (state.filter (fun k => !(ks.contains k)))
  else Except.error (RegistryError.keyNotFound missing)

/-- C2 counterexample: the delete-result union exposed by the schema contains
only the success variant, the unauthorized error, and the generic
`GraphenePythonError`; it has no distinct key-not-found variant, so a
key-not-found failure cannot surface as a distinct structured error there
(the add-result union, by contrast, does carry the distinct
`GrapheneDuplicateDynamicPartitionError`). -/
theorem deleteResult_no_distinct_keyNotFound :
    deleteDynamicPartitionsResultTypes =
      ["GrapheneDeleteDynamicPartitionsSuccess",
       "GrapheneUnauthorizedError",
       "GraphenePythonError"] ∧
    ¬ "GrapheneKeyNotFoundError" ∈ deleteDynamicPartitionsResultTypes ∧
    "GrapheneDuplicateDynamicPartitionError" ∈ addDynamicPartitionResultTypes := by
  refine ⟨rfl, by decide, by decide⟩

/-- C2 (amended): deleting keys where some key is not present fails with a
key-not-found error naming exactly the missing subset (registry behaviour per
the spec), but the schema's delete-result union has no distinct key-not-found
variant — its only error members are the unauthorized error and the generic
`GraphenePythonError`. -/
theorem deleteKeys_missing_fails (state ks : List String)
    (h : ∃ k ∈ ks, ¬ k ∈ state) :
    deleteKeys state ks =
      Except.error (RegistryError.keyNotFound
        (ks.filter (fun k => !(state.contains k)))) ∧
    ks.filter (fun k => !(state.contains k)) ≠ [] ∧
    ¬ "GrapheneKeyNotFoundError" ∈ deleteDynamicPartitionsResultTypes := by
  rcases h with ⟨k, hk, hnot⟩
  have hmem : k ∈ ks.filter (fun k => !(state.contains k)) := by
    apply List.mem_filter.mpr
    exact ⟨hk, by simpa using hnot⟩
  have hne : ks.filter (fun k => !(state.contains k)) ≠ [] := by
    intro hcontra
    rw [hcontra] at hmem
    exact List.not_mem_nil k hmem
  refine ⟨?_, hne, by decide⟩
  unfold deleteKeys
  simp only [List.isEmpty_iff]
  rw [if_neg hne]

/-- Closed witness for `deleteKeys_missing_fails` at a concrete registry. -/
theorem deleteKeys_missing_fails_witness :
    deleteKeys ["a", "b"] ["b", "x"] =
      Except.error (RegistryError.keyNotFound ["x"]) ∧
    (["b", "x"].filter (fun k => !((["a", "b"]).contains k))) ≠ [] ∧
    ¬ "GrapheneKeyNotFoundError" ∈ deleteDynamicPartitionsResultTypes := by
  have h := deleteKeys_missing_fails ["a", "b"] ["b", "x"] ⟨"x", by decide, by decide⟩
  exact ⟨by exact h.1, h.2.1, h.2.2⟩

/-- C3: adding keys some of which are already present fails with a
duplicate-key error naming exactly the subset already present (registry
behaviour per the spec), and the schema's add-result union carries the
distinct `GrapheneDuplicateDynamicPartitionError` variant for it. -/
theorem addKeys_duplicate_fails (state ks : List String)
    (h : ∃ k ∈ ks, k ∈ state) :
    addKeys state ks =
      Except.error (RegistryError.duplicateKey
        (ks.filter (fun k => state.contains k))) ∧
    ks.filter (fun k => state.contains k) ≠ [] ∧
    "GrapheneDuplicateDynamicPartitionError" ∈ addDynamicPartitionResultTypes := by
  rcases h with ⟨k, hk, hin⟩
  have hmem : k ∈ ks.filter (fun k => state.contains k) := by
    apply List.mem_filter.mpr
    exact ⟨hk, by simpa using hin⟩
  have hne : ks.filter (fun k => state.contains k) ≠ [] := by
    intro hcontra
    rw [hcontra] at hmem
    exact List.not_mem_nil k hmem
  refine ⟨?_, hne, by decide⟩
  unfold addKeys
  simp only [List.isEmpty_iff]
  rw [if_neg hne]

/-- Closed witness for `addKeys_duplicate_fails` at a concrete registry. -/
theorem addKeys_duplicate_fails_witness :
    addKeys ["a", "b"] ["b", "x"] =
      Except.error (RegistryError.duplicateKey ["b"]) ∧
    (["b", "x"].filter (fun k => (["a", "b"]).contains k)) ≠ [] ∧
    "GrapheneDuplicateDynamicPartitionError" ∈ addDynamicPartitionResultTypes := by
  have h := addKeys_duplicate_fails ["a", "b"] ["b", "x"] ⟨"b", by decide, by decide⟩
  exact ⟨by exact h.1, h.2.1, h.2.2⟩

/-- `PARTITION_SET_TAG` from `dagster._core.storage.tags`, imported by the
source file. -/
def PARTITION_SET_TAG : String := "dagster/partition_set"

/-- `PARTITION_NAME_TAG` from `dagster._core.storage.tags`, imported by the
source file. -/
def PARTITION_NAME_TAG : String := "dagster/partition"

/-- A run record from the run ledger: id, status and tag mapping
(`RunRecord` is read-only to this layer). -/
structure RunRecord where
  runId : String
  status : RunStatus
  tags : String → Option String

/-- The exact-match two-tag filter the status query applies to a run record:
the partition-set-name tag equals the partition set's name AND the
partition-key tag equals the partition's key. -/
def matchesPartitionTags (psName key : String) (r : RunRecord) : Bool :=
  r.tags PARTITION_SET_TAG == some psName && r.tags PARTITION_NAME_TAG == some key

/-- A per-partition status: key, most-recent matching run id or none, run
status or none ("unstarted"), mirroring `GraphenePartitionStatus`'s
nullable `runId`/`runStatus` fields. -/
structure PartitionStatus where
  partitionName : String
  runId : Option String
  runStatus : Option RunStatus

/-- Modelled from the spec: `statusOf(partitionSet, partitionKey)` of the
PartitionStatusAggregator (`get_partition_set_partition_statuses` is imported
by the source file but its code is not part of it). The ledger is given
newest-first (the RunLedgerQuery contract), so the first record passing the
two-tag exact-match filter is the newest matching record; absence of any
match yields the unstarted status with no run id and no run status. -/
def statusOf (ledger : List RunRecord) (psName key : String) : PartitionStatus :=
  match ledger.find? (matchesPartitionTags psName key) with
  | some r => ⟨key, some r.runId, some r.status⟩
  | none => ⟨key, none, none⟩

/-- C4: the status query filters the ledger on exactly the pair
{partition-set-name tag, partition-key tag} with exact match; when no record
matches, the result is "unstarted" with no run id and no run status; and the
newest matching record (the first match in the newest-first ledger) is
authoritative for the run id and run status. -/
theorem statusOf_spec (ledger : List RunRecord) (psName key : String) :
    ((∀ r ∈ ledger, matchesPartitionTags psName key r = false) →
      statusOf ledger psName key = ⟨key, none, none⟩) ∧
    (∀ pre r post, ledger = pre ++ r :: post →
      (∀ r' ∈ pre, matchesPartitionTags psName key r' = false) →
      matchesPartitionTags psName key r = true →
      statusOf ledger psName key = ⟨key, some r.runId, some r.status⟩) := by
  constructor
  · intro hnone
    unfold statusOf
    have : ledger.find? (matchesPartitionTags psName key) = none := by
      apply List.find?_eq_none.mpr
      intro r hr
      simp [hnone r hr]
    rw [this]
  · intro pre r post hledger hpre hr
    unfold statusOf
    have : ledger.find? (matchesPartitionTags psName key) = some r := by
      subst hledger
      induction pre with
      | nil => simp [List.find?_cons, hr]
      | cons p ps ih =>
        have hp : matchesPartitionTags psName key p = false :=
          hpre p (List.mem_cons_self p ps)
        have hrest : ∀ r' ∈ ps, matchesPartitionTags psName key r' = false :=
          fun r' hr' => hpre r' (List.mem_cons_of_mem p hr')
        simpa [List.find?_cons, hp] using ih hrest
    rw [this]

/-- Closed witness for `statusOf_spec`: a two-record ledger whose newest
record does not match and whose second record does. -/
theorem statusOf_spec_witness :
    statusOf
      [⟨"r1", RunStatus.SUCCESS, fun _ => none⟩,
       ⟨"r2", RunStatus.FAILURE,
        fun t => if t == PARTITION_SET_TAG then some "ps"
                 else if t == PARTITION_NAME_TAG then some "k" else none⟩]
      "ps" "k" = ⟨"k", some "r2", some RunStatus.FAILURE⟩ :=
  (statusOf_spec
      [⟨"r1", RunStatus.SUCCESS, fun _ => none⟩,
       ⟨"r2", RunStatus.FAILURE,
        fun t => if t == PARTITION_SET_TAG then some "ps"
                 else if t == PARTITION_NAME_TAG then some "k" else none⟩]
      "ps" "k").2
    [⟨"r1", RunStatus.SUCCESS, fun _ => none⟩]
    ⟨"r2", RunStatus.FAILURE,
     fun t => if t == PARTITION_SET_TAG then some "ps"
              else if t == PARTITION_NAME_TAG then some "k" else none⟩
    [] rfl
    (by
      intro r' hr'
      rcases List.mem_singleton.mp hr' with h
      subst h
      rfl)
    rfl

/-- `RunsFilter` from `dagster._core.storage.dagster_run` as the source
constructs it in `GraphenePartition.resolve_runs`: run ids, job name,
statuses and a tag mapping. -/
structure RunsFilter where
  run_ids : Option (List String)
  job_name : Option String
  statuses : Option (List RunStatus)
  tags : String → Option String

/-- The selector a caller-supplied `GrapheneRunsFilter` converts to via
`to_selector()`: the fields `resolve_runs` reads from it. -/
structure RunsFilterSelector where
  run_ids : Option (List String)
  job_name : Option String
  statuses : Option (List RunStatus)
  tags : String → Option String

/-- `merge_dicts` from `dagster._utils.merger` (imported by the source file)
on two tag mappings: the result holds all keys of both, and where both define
a key the later argument takes precedence. -/
def mergeDicts (earlier later : String → Option String) : String → Option String :=
  fun k => match later k with
  | some v => some v
  | none => earlier k

/-- The two partition tags `resolve_runs` always applies:
{PARTITION_SET_TAG: partition set name, PARTITION_NAME_TAG: partition name}. -/
def partitionTags (psName partName : String) : String → Option String :=
  fun k => if k == PARTITION_SET_TAG then some psName
           else if k == PARTITION_NAME_TAG then some partName
           else none

/-- `GraphenePartition.resolve_runs`: the `RunsFilter` actually sent to the
run ledger, built from the optional caller filter. With a caller filter, the
filter keeps the caller's run ids, job name and statuses and merges the
caller's tags with the partition tags, the partition tags taking precedence;
without one, the filter carries exactly the partition tags. -/
def resolveRunsFilter (psName partName : String)
    (filter : Option RunsFilterSelector) : RunsFilter :=
  match filter with
  | some sel =>
      { run_ids := sel.run_ids
        job_name := sel.job_name
        statuses := sel.statuses
        tags := mergeDicts sel.tags (partitionTags psName partName) }
  | none =>
      { run_ids := none
        job_name := none
        statuses := none
        tags := partitionTags psName partName }

/-- C9: for every caller-supplied filter, including one that itself sets the
partition-set-name or partition-name tags, the filter sent to the ledger maps
the partition-set-name tag to this partition set's name and the
partition-name tag to this partition's name: the partition tags override the
caller's tags for those two keys. -/
theorem resolveRunsFilter_partition_tags_override (psName partName : String)
    (filter : Option RunsFilterSelector) :
    (resolveRunsFilter psName partName filter).tags PARTITION_SET_TAG = some psName ∧
    (resolveRunsFilter psName partName filter).tags PARTITION_NAME_TAG = some partName := by
  cases filter with
  | none =>
      constructor
      · simp [resolveRunsFilter, partitionTags]
      · simp [resolveRunsFilter, partitionTags, PARTITION_SET_TAG, PARTITION_NAME_TAG]
  | some sel =>
      constructor
      · simp [resolveRunsFilter, mergeDicts, partitionTags]
      · simp [resolveRunsFilter, mergeDicts, partitionTags,
              PARTITION_SET_TAG, PARTITION_NAME_TAG]

/-- The external partition-names source seen by
`GraphenePartitionSet._get_partition_names`: each call to
`context.get_external_partition_names` either returns the names or an
execution-error payload. `fetchAt n` is what the source returns on its
(n+1)-th fetch, so a changing registry is representable; an immutable
snapshot is a constant `fetchAt`. -/
structure PartitionNamesSource where
  fetchAt : Nat → Except String (List String)

/-- The mutable fields of a `GraphenePartitionSet` instance that
`_get_partition_names` reads and writes: the `_partition_names` memo
(initialized to `None` in `__init__`) plus a count of fetches performed so
far against the external source. -/
structure PartitionSetState where
  partition_names : Option (List String)
  fetchCount : Nat

/-- The state of a freshly constructed `GraphenePartitionSet`:
`self._partition_names = None`, no fetches performed. -/
def initialPartitionSetState : PartitionSetState :=
  { partition_names := none, fetchCount := 0 }

/-- `GraphenePartitionSet._get_partition_names`: if the memo is set, return
it unchanged; otherwise fetch from the external source, raise on an
execution-error payload, and store the fetched names in the memo. Returns
the names together with the updated instance state. -/
def getPartitionNames (src : PartitionNamesSource) (s : PartitionSetState) :
    Except String (List String × PartitionSetState) :=
  match s.partition_names with
  | some names => Except.ok (names, s)
  | none =>
      match src.fetchAt s.fetchCount with
      | Except.error e => Except.error e
      | Except.ok names =>
          Except.ok (names, { partition_names := some names,
                              fetchCount := s.fetchCount + 1 })

/-- C5: against the same immutable snapshot (a source whose fetches all
return the same name list), two successive calls on the same partition-set
object return identical ordered sequences of partition keys. -/
theorem getPartitionNames_deterministic (src : PartitionNamesSource)
    (names : List String)
    (h : ∀ n, src.fetchAt n = Except.ok names) :
    getPartitionNames src initialPartitionSetState =
      Except.ok (names, { partition_names := some names, fetchCount := 1 }) ∧
    getPartitionNames src { partition_names := some names, fetchCount := 1 } =
      Except.ok (names, { partition_names := some names, fetchCount := 1 }) := by
  constructor
  · unfold getPartitionNames initialPartitionSetState
    rw [h 0]
  · rfl

/-- Closed witness for `getPartitionNames_deterministic` at a constant
two-name source. -/
theorem getPartitionNames_deterministic_witness :
    getPartitionNames ⟨fun _ => Except.ok ["p1", "p2"]⟩ initialPartitionSetState
      = Except.ok (["p1", "p2"],
          { partition_names := some ["p1", "p2"], fetchCount := 1 }) ∧
    getPartitionNames ⟨fun _ => Except.ok ["p1", "p2"]⟩
        { partition_names := some ["p1", "p2"], fetchCount := 1 }
      = Except.ok (["p1", "p2"],
          { partition_names := some ["p1", "p2"], fetchCount := 1 }) :=
  getPartitionNames_deterministic ⟨fun _ => Except.ok ["p1", "p2"]⟩
    ["p1", "p2"] (fun _ => rfl)

/-- C6 counterexample: partition-name resolution hides caching in the
object's mutable `_partition_names` field. Against an external source whose
registry changes between fetches (first fetch yields `["a"]`, a re-fetch
would yield `["b"]`), the second call returns the memoized `["a"]`, not the
`["b"]` a re-fetch would produce — and `_get_partition_names` takes no
"as of" snapshot token (its only input besides the instance state is the
context source itself). -/
theorem getPartitionNames_memoizes :
    getPartitionNames
        ⟨fun n => if n == 0 then Except.ok ["a"] else Except.ok ["b"]⟩
        initialPartitionSetState
      = Except.ok (["a"], { partition_names := some ["a"], fetchCount := 1 }) ∧
    getPartitionNames
        ⟨fun n => if n == 0 then Except.ok ["a"] else Except.ok ["b"]⟩
        { partition_names := some ["a"], fetchCount := 1 }
      = Except.ok (["a"], { partition_names := some ["a"], fetchCount := 1 }) ∧
    (⟨fun n => if n == 0 then Except.ok ["a"] else Except.ok ["b"]⟩ :
        PartitionNamesSource).fetchAt 1 = Except.ok ["b"] ∧
    (["a"] : List String) ≠ ["b"] := by
  refine ⟨rfl, rfl, rfl, by decide⟩

/-- C6 (amended): repeated calls do not re-fetch — once a call has fetched
the names, every later call on the same object returns the memoized value
regardless of what the external source would now return. -/
theorem getPartitionNames_second_call_uses_memo (src : PartitionNamesSource)
    (s s' : PartitionSetState) (names : List String)
    (h : getPartitionNames src s = Except.ok (names, s')) :
    getPartitionNames src s' = Except.ok (names, s') := by
  unfold getPartitionNames at h ⊢
  cases hm : s.partition_names with
  | some ns =>
      rw [hm] at h
      cases h
      simp [hm]
  | none =>
      rw [hm] at h
      cases hf : src.fetchAt s.fetchCount with
      | error e => rw [hf] at h; cases h
      | ok ns =>
          rw [hf] at h
          cases h
          rfl

/-- Closed witness for `getPartitionNames_second_call_uses_memo` at a source
that changes between fetches. -/
theorem getPartitionNames_second_call_uses_memo_witness :
    getPartitionNames
        ⟨fun n => if n == 0 then Except.ok ["a"] else Except.ok ["b"]⟩
        { partition_names := some ["a"], fetchCount := 1 }
      = Except.ok (["a"], { partition_names := some ["a"], fetchCount := 1 }) :=
  getPartitionNames_second_call_uses_memo
    ⟨fun n => if n == 0 then Except.ok ["a"] else Except.ok ["b"]⟩
    initialPartitionSetState
    { partition_names := some ["a"], fetchCount := 1 }
    ["a"] rfl

/-- `GraphenePartitionDefinitionType`: the closed enumeration of
partition-definition kinds. -/
inductive GraphenePartitionDefinitionType where
  | TIME_WINDOW
  | STATIC
  | MULTIPARTITIONED
  | DYNAMIC
  deriving DecidableEq, Repr

/-- The `ExternalPartitionsDefinitionData` variants the source dispatches on
(the data classes live in `dagster._core.remote_representation.external_data`,
imported by the source file): static (its keys), time-window (its start),
multi (named dimension definitions plus the designated primary dimension
name — the primary-dimension designation is modelled from the spec, which
says exactly one dimension may be marked primary), dynamic (its optional
registry name), and a catch-all for any other subclass, carrying its type
name. -/
inductive ExternalPartitionsDefData where
  | staticKeys (keys : List String)
  | timeWindow (startTs : Int)
  | multi (dims : List (String × ExternalPartitionsDefData)) (primaryName : String)
  | dynamic (name : Option String)
  | other (typeName : String)

/-- `GraphenePartitionDefinitionType.from_partition_def_data`: classify a
partitions-definition data value by its variant; any variant outside the
four known ones hits `check.failed` with the offending type name. -/
def fromPartitionDefData (d : ExternalPartitionsDefData) :
    Except String GraphenePartitionDefinitionType :=
  match d with
  | ExternalPartitionsDefData.staticKeys _ =>
      Except.ok GraphenePartitionDefinitionType.STATIC
  | ExternalPartitionsDefData.timeWindow _ =>
      Except.ok GraphenePartitionDefinitionType.TIME_WINDOW
  | ExternalPartitionsDefData.multi _ _ =>
      Except.ok GraphenePartitionDefinitionType.MULTIPARTITIONED
  | ExternalPartitionsDefData.dynamic _ =>
      Except.ok GraphenePartitionDefinitionType.DYNAMIC
  | ExternalPartitionsDefData.other ty =>
      Except.error ("Invalid external partitions definition data type: " ++ ty)

/-- C8: classification is a closed four-variant union: each of the four known
variants maps to its kind, and on any input that is one of the four known
variants the failure branch is unreachable. -/
theorem fromPartitionDefData_closed :
    (∀ ks, fromPartitionDefData (ExternalPartitionsDefData.staticKeys ks) =
      Except.ok GraphenePartitionDefinitionType.STATIC) ∧
    (∀ s, fromPartitionDefData (ExternalPartitionsDefData.timeWindow s) =
      Except.ok GraphenePartitionDefinitionType.TIME_WINDOW) ∧
    (∀ dims p, fromPartitionDefData (ExternalPartitionsDefData.multi dims p) =
      Except.ok GraphenePartitionDefinitionType.MULTIPARTITIONED) ∧
    (∀ n, fromPartitionDefData (ExternalPartitionsDefData.dynamic n) =
      Except.ok GraphenePartitionDefinitionType.DYNAMIC) ∧
    (∀ d, (∀ ty, d ≠ ExternalPartitionsDefData.other ty) →
      (fromPartitionDefData d).isOk = true) := by
  refine ⟨fun _ => rfl, fun _ => rfl, fun _ _ => rfl, fun _ => rfl, ?_⟩
  intro d hd
  cases d with
  | staticKeys ks => rfl
  | timeWindow s => rfl
  | multi dims p => rfl
  | dynamic n => rfl
  | other ty => exact absurd rfl (hd ty)

/-- Closed witness for `fromPartitionDefData_closed`: the failure branch is
unreachable at a concrete known variant. -/
theorem fromPartitionDefData_closed_witness :
    (fromPartitionDefData (ExternalPartitionsDefData.staticKeys ["a"])).isOk = true :=
  fromPartitionDefData_closed.2.2.2.2
    (ExternalPartitionsDefData.staticKeys ["a"])
    (fun _ h => ExternalPartitionsDefData.noConfusion h)

/-- Modelled from the spec: the `str(...)` rendering of a partitions
definition used for the `description` field (the
`PartitionsDefinition.__str__` implementations are not part of the source
file); one fixed rendering per variant. -/
def describePartitionsDef : ExternalPartitionsDefData → String
  | ExternalPartitionsDefData.staticKeys _ => "Static partitions"
  | ExternalPartitionsDefData.timeWindow _ => "Time-window partitions"
  | ExternalPartitionsDefData.multi _ _ => "Multi-dimensional partitions"
  | ExternalPartitionsDefData.dynamic _ => "Dynamic partitions"
  | ExternalPartitionsDefData.other ty => ty

/-- `GrapheneDimensionDefinitionType`: one dimension descriptor as the source
builds it — name, description, kind, primary flag, and the dynamic
definition name when the dimension is dynamic. -/
structure GrapheneDimensionDefinitionType where
  name : String
  description : String
  type : GraphenePartitionDefinitionType
  isPrimaryDimension : Bool
  dynamicPartitionsDefinitionName : Option String

/-- The list comprehension of the source's multi branch: one descriptor per
dimension, in order; the primary flag compares the dimension name with the
primary dimension's name; a classification failure of any dimension's data
propagates as the comprehension's exception. -/
def resolveMultiDims (primaryName : String) :
    List (String × ExternalPartitionsDefData) →
    Except String (List GrapheneDimensionDefinitionType)
  | [] => Except.ok []
  | (n, d) :: rest =>
      match fromPartitionDefData d with
      | Except.error e => Except.error e
      | Except.ok t =>
          match resolveMultiDims primaryName rest with
          | Except.error e => Except.error e
          | Except.ok l =>
              Except.ok
                ({ name := n,
                   description := describePartitionsDef d,
                   type := t,
                   isPrimaryDimension := n == primaryName,
                   dynamicPartitionsDefinitionName :=
                     match d with
                     | ExternalPartitionsDefData.dynamic nm => nm
                     | _ => none } :: l)

/-- `GraphenePartitionDefinition.resolve_dimensionTypes`: for a multi
definition, one descriptor per dimension; for every other definition, a
single descriptor named "default" with the primary flag set. -/
def resolveDimensionTypes (d : ExternalPartitionsDefData) :
    Except String (List GrapheneDimensionDefinitionType) :=
  match d with
  | ExternalPartitionsDefData.multi dims primaryName =>
      resolveMultiDims primaryName dims
  | _ =>
      match fromPartitionDefData d with
      | Except.error e => Except.error e
      | Except.ok t =>
          Except.ok
            [{ name := "default",
               description := "",
               type := t,
               isPrimaryDimension := true,
               dynamicPartitionsDefinitionName :=
                 match d with
                 | ExternalPartitionsDefData.dynamic nm => nm
                 | _ => none }]

lemma countP_beq_eq_one {α : Type} [BEq α] [LawfulBEq α] (names : List α) (a : α)
    (hnd : names.Nodup) (hmem : a ∈ names) :
    names.countP (fun x => x == a) = 1 := by
  induction names with
  | nil => exact absurd hmem (List.not_mem_nil a)
  | cons b bs ih =>
      rw [List.nodup_cons] at hnd
      rcases List.mem_cons.mp hmem with heq | hmem'
      · subst heq
        rw [List.countP_cons]
        have h0 : bs.countP (fun x => x == a) = 0 := by
          apply List.countP_eq_zero.mpr
          intro x hx
          simp only [beq_iff_eq]
          intro hxa
          exact hnd.1 (hxa ▸ hx)
        simp [h0]
      · have hne : (b == a) = false := by
          apply beq_eq_false_iff_ne.mpr
          intro hba
          exact hnd.1 (hba ▸ hmem')
        rw [List.countP_cons, ih hnd.2 hmem']
        simp [hne]

lemma resolveMultiDims_countP (primaryName : String)
    (dims : List (String × ExternalPartitionsDefData))
    (l : List GrapheneDimensionDefinitionType)
    (h : resolveMultiDims primaryName dims = Except.ok l) :
    l.countP (fun t => t.isPrimaryDimension) =
      (dims.map Prod.fst).countP (fun n => n == primaryName) := by
  induction dims generalizing l with
  | nil =>
      simp only [resolveMultiDims] at h
      cases h
      rfl
  | cons nd rest ih =>
      obtain ⟨n, d⟩ := nd
      simp only [resolveMultiDims] at h
      cases hf : fromPartitionDefData d with
      | error e => rw [hf] at h; cases h
      | ok t =>
          rw [hf] at h
          cases hrec : resolveMultiDims primaryName rest with
          | error e => rw [hrec] at h; cases h
          | ok l' =>
              rw [hrec] at h
              cases h
              rw [List.countP_cons, List.map_cons, List.countP_cons, ih l' hrec]

/-- C7: the dimension descriptors contain exactly one primary dimension — for
a multi definition with unique dimension names whose primary name is among
them, exactly one descriptor carries the primary flag; for every
single-dimension (non-multi, known-variant) definition, the descriptor list
is a single dimension named "default" carrying the primary flag. -/
theorem resolveDimensionTypes_one_primary :
    (∀ dims primaryName l,
      resolveDimensionTypes (ExternalPartitionsDefData.multi dims primaryName) =
        Except.ok l →
      (dims.map Prod.fst).Nodup →
      primaryName ∈ dims.map Prod.fst →
      l.countP (fun t => t.isPrimaryDimension) = 1) ∧
    (∀ d l,
      (∀ dims p, d ≠ ExternalPartitionsDefData.multi dims p) →
      (∀ ty, d ≠ ExternalPartitionsDefData.other ty) →
      resolveDimensionTypes d = Except.ok l →
      l.map (fun t => t.name) = ["default"] ∧
      l.countP (fun t => t.isPrimaryDimension) = 1) := by
  constructor
  · intro dims primaryName l h hnd hmem
    have hc := resolveMultiDims_countP primaryName dims l h
    rw [hc]
    exact countP_beq_eq_one (dims.map Prod.fst) primaryName hnd hmem
  · intro d l hnotmulti hnotother h
    cases d with
    | staticKeys ks => cases h; exact ⟨rfl, rfl⟩
    | timeWindow s => cases h; exact ⟨rfl, rfl⟩
    | dynamic n => cases h; exact ⟨rfl, rfl⟩
    | multi dims p => exact absurd rfl (hnotmulti dims p)
    | other ty => exact absurd rfl (hnotother ty)

/-- Closed witness for `resolveDimensionTypes_one_primary`: a concrete
two-dimension multi definition with primary dimension "date", and a concrete
static definition. -/
theorem resolveDimensionTypes_one_primary_witness :
    ([{ name := "date", description := "Time-window partitions",
        type := GraphenePartitionDefinitionType.TIME_WINDOW,
        isPrimaryDimension := true,
        dynamicPartitionsDefinitionName := none },
      { name := "region", description := "Static partitions",
        type := GraphenePartitionDefinitionType.STATIC,
        isPrimaryDimension := false,
        dynamicPartitionsDefinitionName := none }] :
      List GrapheneDimensionDefinitionType).countP
        (fun t => t.isPrimaryDimension) = 1 ∧
    (([{ name := "default", description := "",
         type := GraphenePartitionDefinitionType.STATIC,
         isPrimaryDimension := true,
         dynamicPartitionsDefinitionName := none }] :
       List GrapheneDimensionDefinitionType).map (fun t => t.name) = ["default"] ∧
     ([{ name := "default", description := "",
         type := GraphenePartitionDefinitionType.STATIC,
         isPrimaryDimension := true,
         dynamicPartitionsDefinitionName := none }] :
       List GrapheneDimensionDefinitionType).countP
         (fun t => t.isPrimaryDimension) = 1) :=
  ⟨resolveDimensionTypes_one_primary.1
      [("date", ExternalPartitionsDefData.timeWindow 0),
       ("region", ExternalPartitionsDefData.staticKeys ["us", "eu"])]
      "date" _ rfl (by decide) (by decide),
   resolveDimensionTypes_one_primary.2
      (ExternalPartitionsDefData.staticKeys ["a", "b"]) _
      (fun _ _ h => ExternalPartitionsDefData.noConfusion h)
      (fun _ h => ExternalPartitionsDefData.noConfusion h)
      rfl⟩

/-- A backfill's partition-set origin: the partition set's name and the
owning repository's name (the fields `resolve_backfills` reads). -/
structure PartitionSetOrigin where
  partition_set_name : String
  repository_name : String
  deriving DecidableEq, Repr

/-- A stored backfill: its id and its optional partition-set origin
(`backfill.partition_set_origin` can be absent). -/
structure Backfill where
  backfillId : String
  partition_set_origin : Option PartitionSetOrigin
  deriving DecidableEq, Repr

/-- The membership test of `GraphenePartitionSet.resolve_backfills`: the
backfill's partition-set origin exists, its partition-set name equals this
partition set's name, and its repository name equals this repository's
name. -/
def backfillMatches (psName repoName : String) (b : Backfill) : Bool :=
  match b.partition_set_origin with
  | some o => o.partition_set_name == psName && o.repository_name == repoName
  | none => false

/-- `GraphenePartitionSet.resolve_backfills`: filter the stored backfills
(as returned by `instance.get_backfills`, in store order) down to those
matching this partition set and repository, then keep at most `limit` of
them (`matching[:limit]`; a missing limit keeps them all). -/
def resolveBackfills (store : List Backfill) (psName repoName : String)
    (limit : Option Nat) : List Backfill :=
  let matching := store.filter (backfillMatches psName repoName)
  match limit with
  | some n => matching.take n
  | none => matching

/-- C10: every resolved backfill has a partition-set origin matching both
this partition set's name and this repository's name; the resolved list is a
sublist of the store (store order preserved); and when a limit is given the
resolved list has at most `limit` elements. -/
theorem resolveBackfills_spec (store : List Backfill) (psName repoName : String)
    (limit : Option Nat) :
    (∀ b ∈ resolveBackfills store psName repoName limit,
      ∃ o, b.partition_set_origin = some o ∧
        o.partition_set_name = psName ∧ o.repository_name = repoName) ∧
    (resolveBackfills store psName repoName limit).Sublist store ∧
    (∀ n, limit = some n →
      (resolveBackfills store psName repoName limit).length ≤ n) := by
  have hsub : (resolveBackfills store psName repoName limit).Sublist
      (store.filter (backfillMatches psName repoName)) := by
    unfold resolveBackfills
    cases limit with
    | none => exact List.Sublist.refl _
    | some n => exact List.take_sublist n _
  refine ⟨?_, ?_, ?_⟩
  · intro b hb
    have hbf : b ∈ store.filter (backfillMatches psName repoName) :=
      hsub.mem hb
    have hmatch : backfillMatches psName repoName b = true :=
      List.of_mem_filter hbf
    unfold backfillMatches at hmatch
    cases ho : b.partition_set_origin with
    | none => rw [ho] at hmatch; cases hmatch
    | some o =>
        rw [ho] at hmatch
        have := Bool.and_eq_true_iff.mp hmatch
        exact ⟨o, rfl, beq_iff_eq.mp this.1, beq_iff_eq.mp this.2⟩
  · exact hsub.trans (List.filter_sublist store)
  · intro n hn
    subst hn
    exact List.length_take_le n (store.filter (backfillMatches psName repoName))

/-- Closed witness for `resolveBackfills_spec` at a concrete store with a
matching, a non-matching, and an origin-less backfill, with limit 1. -/
theorem resolveBackfills_spec_witness :
    (resolveBackfills
        [⟨"bf1", some ⟨"ps", "repo"⟩⟩,
         ⟨"bf2", some ⟨"other_ps", "repo"⟩⟩,
         ⟨"bf3", none⟩,
         ⟨"bf4", some ⟨"ps", "repo"⟩⟩]
        "ps" "repo" (some 1)).Sublist
      [⟨"bf1", some ⟨"ps", "repo"⟩⟩,
       ⟨"bf2", some ⟨"other_ps", "repo"⟩⟩,
       ⟨"bf3", none⟩,
       ⟨"bf4", some ⟨"ps", "repo"⟩⟩] ∧
    (resolveBackfills
        [⟨"bf1", some ⟨"ps", "repo"⟩⟩,
         ⟨"bf2", some ⟨"other_ps", "repo"⟩⟩,
         ⟨"bf3", none⟩,
         ⟨"bf4", some ⟨"ps", "repo"⟩⟩]
        "ps" "repo" (some 1)).length ≤ 1 := by
  have h := resolveBackfills_spec
    [⟨"bf1", some ⟨"ps", "repo"⟩⟩,
     ⟨"bf2", some ⟨"other_ps", "repo"⟩⟩,
     ⟨"bf3", none⟩,
     ⟨"bf4", some ⟨"ps", "repo"⟩⟩]
    "ps" "repo" (some 1)
  exact ⟨h.2.1, h.2.2 1 rfl⟩
